import Mathlib

/-!
Verification development for the JobMate backend.

Shallow embedding of the discovery pipeline (fetcher, red-flag filter,
dedup ingestor, scrape worker) and the application Kanban state machine
(transition table, `MoveCard`, `CreateApplication`, gateway resolvers
`createApplication` / `approveJob`), together with theorems about the
testable properties stated for those components.

The embedding follows the sources:
* `tracker-service/internal/kanban/transitions.go` and `service.go` (Go),
* `discovery-service/internal/scraper/{redflag,fetcher,worker}.go` (Go),
* the gateway GraphQL resolvers (JS) and the PostgreSQL schema
  (`init.sql`): database tables are lists of rows, `NOW()` is an explicit
  clock field, Redis publishes append to an event list.
-/

deriving instance DecidableEq for Except

namespace JobMate

/-! ## Kanban statuses and the transition table (`transitions.go`) -/

/-- The `application_status` PostgreSQL enum / `kanban.Status` Go type. -/
inductive Status where
  | TO_APPLY
  | APPLIED
  | INTERVIEW
  | OFFER
  | HIRED
  | REJECTED
deriving DecidableEq, Repr

/-- The string constant backing each `kanban.Status` value. -/
def statusStr : Status → String
  | .TO_APPLY => "TO_APPLY"
  | .APPLIED => "APPLIED"
  | .INTERVIEW => "INTERVIEW"
  | .OFFER => "OFFER"
  | .HIRED => "HIRED"
  | .REJECTED => "REJECTED"

/-- `validTransitions` map from `transitions.go`: `none` models a key that is
absent from the Go map (HIRED and REJECTED are terminal). -/
def validTransitions : Status → Option (List Status)
  | .TO_APPLY => some [.APPLIED, .REJECTED]
  | .APPLIED => some [.INTERVIEW, .REJECTED]
  | .INTERVIEW => some [.OFFER, .REJECTED]
  | .OFFER => some [.HIRED, .REJECTED]
  | .HIRED => none
  | .REJECTED => none

/-- `kanban.IsTransitionAllowed`. -/
def IsTransitionAllowed (fromSt toSt : Status) : Bool :=
  match validTransitions fromSt with
  | none => false
  | some allowed => allowed.contains toSt

/-- `kanban.IsHired`. -/
def IsHired (s : Status) : Bool := s = Status.HIRED

/-- `kanban.ParseStatus`: exact, case-sensitive match against the six tokens. -/
def ParseStatus (s : String) : Except String Status :=
  if s = "TO_APPLY" then .ok .TO_APPLY
  else if s = "APPLIED" then .ok .APPLIED
  else if s = "INTERVIEW" then .ok .INTERVIEW
  else if s = "OFFER" then .ok .OFFER
  else if s = "HIRED" then .ok .HIRED
  else if s = "REJECTED" then .ok .REJECTED
  else .error ("unknown application status " ++ s)

/-- The transition table as the spec enumerates it:
`TO_APPLY→{APPLIED, REJECTED}`, `APPLIED→{INTERVIEW, REJECTED}`,
`INTERVIEW→{OFFER, REJECTED}`, `OFFER→{HIRED, REJECTED}`. -/
def transitionTable : List (Status × Status) :=
  [(.TO_APPLY, .APPLIED), (.TO_APPLY, .REJECTED),
   (.APPLIED, .INTERVIEW), (.APPLIED, .REJECTED),
   (.INTERVIEW, .OFFER), (.INTERVIEW, .REJECTED),
   (.OFFER, .HIRED), (.OFFER, .REJECTED)]

theorem parseStatus_statusStr (s : Status) : ParseStatus (statusStr s) = .ok s := by
  cases s <;> rfl

theorem isTransitionAllowed_iff_mem (f t : Status) :
    IsTransitionAllowed f t = true ↔ (f, t) ∈ transitionTable := by
  cases f <;> cases t <;> simp [IsTransitionAllowed, validTransitions, transitionTable]

/-! ## Database rows and the shared PostgreSQL state (`init.sql`) -/

/-- The `job_status` PostgreSQL enum on `job_feed`. -/
inductive JobStatus where
  | PENDING
  | APPROVED
  | REJECTED
deriving DecidableEq, Repr

/-- One `{from, to, at}` record of an application's `history_log` JSONB array.
Field names avoid the Lean keywords `from`/`at`. -/
structure HistoryEntry where
  hFrom : Status
  hTo : Status
  hAt : Nat
deriving DecidableEq, Repr

/-- A row of the `applications` table. `jobFeedId` is nullable
(`job_feed_id UUID REFERENCES job_feed`); ids and timestamps are `Nat`. -/
structure AppRow where
  id : Nat
  userId : Nat
  jobFeedId : Option Nat
  currentStatus : Status
  aiAnalysis : String
  userNotes : Option String
  userRating : Option Nat
  relanceReminderAt : Option Nat
  historyLog : List HistoryEntry
  createdAt : Nat
  updatedAt : Nat
deriving DecidableEq, Repr

/-- A row of the `job_feed` table (`search_config_id` is `NOT NULL` in the
schema; `raw_data` is an opaque payload this core never interprets). -/
structure FeedRow where
  id : Nat
  searchConfigId : Nat
  rawData : String
  sourceUrl : String
  status : JobStatus
deriving DecidableEq, Repr

/-- A row of the `search_configs` table (fields the claims touch). -/
structure ConfigRow where
  id : Nat
  userId : Nat
  isActive : Bool
  updatedAt : Nat
deriving DecidableEq, Repr

/-- A message published on the Redis event bus. `evFrom`/`evTo` carry the
`from`/`to` JSON keys of an `EVENT_CARD_MOVED` payload. -/
structure EventMsg where
  etype : String
  applicationId : Nat
  userId : Nat
  evFrom : String
  evTo : String
deriving DecidableEq, Repr

/-- The shared store: the PostgreSQL tables both services hit, the ordered
log of published Redis events, a fresh-id counter for row inserts, and the
clock backing `NOW()`. -/
structure DBState where
  apps : List AppRow
  feed : List FeedRow
  configs : List ConfigRow
  events : List EventMsg
  nextId : Nat
  now : Nat
deriving DecidableEq, Repr

/-- Error taxonomy of the tracker service (`kanban` package): `ErrNotFound`,
`*ValidationError`, and wrapped unexpected errors. -/
inductive KErr where
  | notFound
  | validation (msg : String)
  | internalErr (msg : String)
deriving DecidableEq, Repr

/-- `SELECT ... FROM applications WHERE id = $1 AND user_id = $2`. -/
def findApp (apps : List AppRow) (appID userID : Nat) : Option AppRow :=
  apps.find? (fun a => a.id = appID && a.userId = userID)

/-- `UPDATE applications SET ... WHERE id = $1 AND user_id = $2`, with the
new row value already computed. -/
def updateApp (apps : List AppRow) (appID userID : Nat) (row : AppRow) : List AppRow :=
  apps.map (fun a => if a.id = appID && a.userId = userID then row else a)

/-! ## Tracker service `MoveCard` and archival (`service.go`) -/

/-- The new `search_configs` column values produced by the SQL of
`archiveSearchConfig`: deactivate the config reachable through the moved
application's linked `job_feed` row (no-op when the application has no
linked feed item or the rows are missing). -/
def archivedConfigs (st : DBState) (appID : Nat) : List ConfigRow :=
  match st.apps.find? (fun a => a.id = appID) with
  | none => st.configs
  | some a =>
    match a.jobFeedId with
    | none => st.configs
    | some fid =>
      match st.feed.find? (fun j => j.id = fid) with
      | none => st.configs
      | some jf =>
        st.configs.map (fun c =>
          if c.id = jf.searchConfigId then { c with isActive := false, updatedAt := st.now } else c)

/-- `Service.archiveSearchConfig`: the UPDATE only touches `search_configs`. -/
def archiveSearchConfig (st : DBState) (appID : Nat) : DBState :=
  { st with configs := archivedConfigs st appID }

/-- The `EVENT_CARD_MOVED` payload published at the end of `MoveCard`. -/
def cardMovedEvent (appID userID : Nat) (fromSt toSt : Status) : EventMsg :=
  { etype := "EVENT_CARD_MOVED", applicationId := appID, userId := userID,
    evFrom := statusStr fromSt, evTo := statusStr toSt }

/-- The `ValidationError` message `MoveCard` formats for an illegal move. -/
def transitionMsg (fromSt toSt : Status) : String :=
  "transition " ++ statusStr fromSt ++ " → " ++ statusStr toSt ++ " is not allowed"

/-- `Service.MoveCard` from `service.go`. The two booleans are the outcomes
of the two best-effort side effects (the archival UPDATE and the Redis
publish): when `false` the side effect fails and is only logged, mirroring
the non-fatal error handling in the source. The DB stores only valid enum
values, so the re-parse of the loaded `current_status` is the identity and
the row's `Status` field is used directly. -/
def MoveCard (st : DBState) (userID appID : Nat) (newStatusStr : String)
    (archiveOk publishOk : Bool) : Except KErr AppRow × DBState :=
  match ParseStatus newStatusStr with
  | .error e => (.error (.validation e), st)
  | .ok newStatus =>
    match findApp st.apps appID userID with
    | none => (.error .notFound, st)
    | some row =>
      let currentStatus := row.currentStatus
      if IsTransitionAllowed currentStatus newStatus then
        let entry : HistoryEntry := { hFrom := currentStatus, hTo := newStatus, hAt := st.now }
        let row' := { row with currentStatus := newStatus,
                               historyLog := row.historyLog ++ [entry],
                               updatedAt := st.now }
        let st1 := { st with apps := updateApp st.apps appID userID row' }
        let st2 := if IsHired newStatus && archiveOk then archiveSearchConfig st1 appID else st1
        let ev := cardMovedEvent appID userID currentStatus newStatus
        let st3 := if publishOk then { st2 with events := st2.events ++ [ev] } else st2
        (.ok row', st3)
      else
        (.error (.validation (transitionMsg currentStatus newStatus)), st)

/-! ## Gateway resolvers (`resolvers.js`) and tracker `CreateApplication` -/

/-- GraphQL error codes thrown by the gateway resolvers. -/
inductive GqlErr where
  | notFound (msg : String)
  | badUserInput (msg : String)
deriving DecidableEq, Repr

/-- The `ON CONFLICT (user_id, job_feed_id)` conflict target. Under
PostgreSQL unique-constraint semantics two NULLs are distinct, so a row
with a NULL `job_feed_id` never conflicts with anything. -/
def conflictTarget (userId : Nat) (jobFeedId : Option Nat) (a : AppRow) : Bool :=
  a.userId = userId &&
    match jobFeedId, a.jobFeedId with
    | some v, some w => v = w
    | _, _ => false

/-- A fresh `applications` row as the gateway's INSERT produces it: explicit
`current_status 'TO_APPLY'`, schema defaults for the other columns. -/
def newAppRow (st : DBState) (userId : Nat) (jobFeedId : Option Nat) (status : Status) : AppRow :=
  { id := st.nextId, userId := userId, jobFeedId := jobFeedId, currentStatus := status,
    aiAnalysis := "{}", userNotes := none, userRating := none, relanceReminderAt := none,
    historyLog := [], createdAt := st.now, updatedAt := st.now }

/-- The gateway `createApplication` resolver (JS):
`INSERT INTO applications (user_id, job_feed_id, current_status) VALUES ($1, $2, 'TO_APPLY')
ON CONFLICT (user_id, job_feed_id) DO UPDATE SET updated_at = NOW() RETURNING ...`.
On conflict the existing row's `updated_at` is bumped and that row is
returned; otherwise one new row is inserted and returned. -/
def createApplication (st : DBState) (userId : Nat) (jobFeedId : Option Nat) :
    AppRow × DBState :=
  match st.apps.find? (conflictTarget userId jobFeedId) with
  | some row =>
    let row' := { row with updatedAt := st.now }
    (row', { st with apps := st.apps.map (fun a => if conflictTarget userId jobFeedId a then row' else a) })
  | none =>
    let row := newAppRow st userId jobFeedId .TO_APPLY
    (row, { st with apps := st.apps ++ [row], nextId := st.nextId + 1 })

/-- The `CMD_ANALYZE_JOB` command published after an application insert. -/
def analyzeEvent (appID userID : Nat) : EventMsg :=
  { etype := "CMD_ANALYZE_JOB", applicationId := appID, userId := userID,
    evFrom := "", evTo := "" }

/-- The tracker service `Service.CreateApplication` (Go):
`INSERT ... ON CONFLICT (user_id, job_feed_id) DO NOTHING RETURNING *` inside
a CTE, then `QueryRow(...).Scan`. On conflict the CTE returns zero rows, so
`Scan` fails with "no rows in result set" and the call returns a wrapped
error. The inserted status is `'APPLIED'`. The publish of `CMD_ANALYZE_JOB`
is non-fatal (`publishOk` is its outcome). -/
def CreateApplication (st : DBState) (userID jobFeedID : Nat) (publishOk : Bool) :
    Except KErr AppRow × DBState :=
  if st.apps.any (conflictTarget userID (some jobFeedID)) then
    (.error (.internalErr "createApplication: no rows in result set"), st)
  else
    let row := newAppRow st userID (some jobFeedID) .APPLIED
    let st1 := { st with apps := st.apps ++ [row], nextId := st.nextId + 1 }
    let st2 := if publishOk then { st1 with events := st1.events ++ [analyzeEvent row.id userID] } else st1
    (.ok row, st2)

/-- `UPDATE job_feed SET status = 'APPROVED' WHERE id = $1`. -/
def approvedFeed (feed : List FeedRow) (jobFeedId : Nat) : List FeedRow :=
  feed.map (fun j => if j.id = jobFeedId then { j with status := JobStatus.APPROVED } else j)

/-- The application row `approveJob` returns on the success path: the
result of the `ON CONFLICT DO UPDATE` insert against the store whose feed
row was just approved. -/
def approveResult (st : DBState) (userId jobFeedId : Nat) : AppRow :=
  (createApplication { st with feed := approvedFeed st.feed jobFeedId }
    userId (some jobFeedId)).1

/-- The store after `approveJob`'s success path: the feed update, the
application insert-or-touch, then the best-effort publish. -/
def postApproveState (st : DBState) (userId jobFeedId : Nat) (publishOk : Bool) : DBState :=
  let res := createApplication { st with feed := approvedFeed st.feed jobFeedId }
    userId (some jobFeedId)
  if publishOk
    then { res.2 with events := res.2.events ++ [analyzeEvent res.1.id userId] }
    else res.2

/-- The gateway `approveJob` resolver (JS): ownership check through the
`job_feed → search_configs` join, reject already-approved items, flip the
feed status to APPROVED, insert-or-touch the application with the same
`ON CONFLICT DO UPDATE` statement as `createApplication`, then best-effort
publish `CMD_ANALYZE_JOB`. -/
def approveJob (st : DBState) (userId jobFeedId : Nat) (publishOk : Bool) :
    Except GqlErr AppRow × DBState :=
  match st.feed.find? (fun j => j.id = jobFeedId) with
  | none => (.error (.notFound "Job not found or does not belong to you."), st)
  | some jf =>
    if st.configs.any (fun c => c.id = jf.searchConfigId && c.userId = userId) then
      if jf.status = JobStatus.APPROVED then
        (.error (.badUserInput "Job is already approved."), st)
      else
        (.ok (approveResult st userId jobFeedId),
         postApproveState st userId jobFeedId publishOk)
    else
      (.error (.notFound "Job not found or does not belong to you."), st)

/-! ## Red-flag filter (`redflag.go`) -/

/-- Go `strings.Contains s sub`: `sub` occurs contiguously inside `s`. -/
def strContains (s sub : String) : Bool :=
  decide (sub.toList <:+: s.toList)

/-- Go `strings.ToLower`, modelled character-wise on the string's data
(`String.toLower` itself recurses on byte positions, which the kernel
cannot evaluate). -/
def toLowerStr (s : String) : String :=
  String.mk (s.toList.map Char.toLower)

/-- `scraper.ContainsRedFlag`: early `false` on an empty flag list, then a
case-insensitive substring scan of the space-joined concatenation of the
three text fields, skipping empty flags. -/
def ContainsRedFlag (title company description : String) (redFlags : List String) : Bool :=
  if redFlags.isEmpty then false
  else
    let combined := toLowerStr (title ++ " " ++ company ++ " " ++ description)
    redFlags.any (fun flag => if flag = "" then false else strContains combined (toLowerStr flag))

/-- Modelled from the spec's words for comparison with `ContainsRedFlag`:
"true exactly when some flag in the list occurs case-insensitively as a
substring of the concatenation of the title, company, and description
fields" — plain concatenation, no separators, no empty-flag exception. -/
def specContainsRedFlag (title company description : String) (redFlags : List String) : Bool :=
  redFlags.any (fun flag =>
    strContains (toLowerStr (title ++ company ++ description)) (toLowerStr flag))

/-! ## Dedup ingest (`worker.go` `scrapeAndInsert` insert statement) -/

/-- Classification of one ingest attempt, derived from `RowsAffected`. -/
inductive IngestResult where
  | Inserted
  | Duplicate
deriving DecidableEq, Repr

/-- The conditional insert of `scrapeAndInsert`:
`INSERT INTO job_feed (search_config_id, raw_data, source_url, status)
SELECT $1, $2, $3, 'PENDING' WHERE NOT EXISTS
(SELECT 1 FROM job_feed WHERE source_url = $3)`; the classification comes
from whether the insert affected a row. -/
def pendingRow (nextId cfgId : Nat) (raw srcUrl : String) : FeedRow :=
  { id := nextId, searchConfigId := cfgId, rawData := raw,
    sourceUrl := srcUrl, status := .PENDING }

def ingest (feed : List FeedRow) (nextId cfgId : Nat) (raw srcUrl : String) :
    IngestResult × List FeedRow × Nat :=
  if feed.any (fun r => r.sourceUrl = srcUrl) then
    (.Duplicate, feed, nextId)
  else
    (.Inserted, feed ++ [pendingRow nextId cfgId raw srcUrl], nextId + 1)

/-- Number of feed rows carrying a given `source_url`. -/
def countUrl (feed : List FeedRow) (u : String) : Nat :=
  (feed.filter (fun r => r.sourceUrl = u)).length

/-- `N` successive ingest attempts for one listing (same `source_url`). -/
def iterateIngest : Nat → List FeedRow → Nat → Nat → String → String → List FeedRow × Nat
  | 0, feed, nextId, _, _, _ => (feed, nextId)
  | n + 1, feed, nextId, cfgId, raw, srcUrl =>
    let r := ingest feed nextId cfgId raw srcUrl
    iterateIngest n r.2.1 r.2.2 cfgId raw srcUrl

/-! ## Adzuna fetcher (`fetcher.go`) -/

/-- A normalized listing (`model.JobResult`), the fields the claims use. -/
structure JobResult where
  externalID : String
  title : String
  company : String
  description : String
  sourceURL : String
deriving DecidableEq, Repr

/-- `adzunaPageSize` from `fetcher.go`. -/
def adzunaPageSize : Nat := 50

/-- `adzunaMaxPages` from `fetcher.go`. -/
def adzunaMaxPages : Nat := 3

/-- `scraper.AdzunaFetcher` credentials/configuration. -/
structure AdzunaFetcher where
  AppID : String
  AppKey : String
  Country : String
deriving DecidableEq, Repr

/-- The page loop of `Fetch`: for each page in order, call the page oracle
(the HTTP round trip of `fetchPage`, keyed by title, location and page
number); an error aborts with the wrapped error; an empty page stops; a
short page is appended and stops; a full page is appended and the loop
continues. Exhausting the page list returns the accumulator. -/
def fetchPages (oracle : String → String → Nat → Except String (List JobResult))
    (jobTitle location : String) :
    List Nat → List JobResult → Except String (List JobResult)
  | [], acc => .ok acc
  | p :: rest, acc =>
    match oracle jobTitle location p with
    | .error e => .error ("page " ++ toString p ++ ": " ++ e)
    | .ok batch =>
      if batch.length = 0 then .ok acc
      else if batch.length < adzunaPageSize then .ok (acc ++ batch)
      else fetchPages oracle jobTitle location rest (acc ++ batch)

/-- `AdzunaFetcher.Fetch`: when `AppID` or `AppKey` is empty, log and return
`(nil, nil)` — an empty result with no error; otherwise page through
`1 .. adzunaMaxPages`. -/
def Fetch (f : AdzunaFetcher)
    (oracle : String → String → Nat → Except String (List JobResult))
    (jobTitle location : String) : Except String (List JobResult) :=
  if f.AppID = "" || f.AppKey = "" then .ok []
  else fetchPages oracle jobTitle location (List.range' 1 adzunaMaxPages) []

/-! ## Scrape worker (`worker.go`) -/

/-- A `model.SearchConfig` as the worker consumes it. -/
structure SearchConfig where
  id : Nat
  userId : Nat
  jobTitles : List String
  locations : List String
  redFlags : List String
deriving DecidableEq, Repr

/-- Per-config counters accumulated by a scrape cycle. -/
structure ScrapeTotals where
  inserted : Nat
  filtered : Nat
  duplicate : Nat
deriving DecidableEq, Repr

/-- The worker's environment: the fetcher outcome per (title, location)
pair, and whether the DB `Exec` for a given `source_url` succeeds (a failed
insert is logged and the listing loop continues). -/
structure ScrapeEnv where
  fetch : String → String → Except String (List JobResult)
  dbOk : String → Bool

/-- The opaque `raw_data` JSONB payload serialized from a listing; stored,
never interpreted by this core. -/
def jobRaw (j : JobResult) : String :=
  j.externalID ++ "|" ++ j.title ++ "|" ++ j.company ++ "|" ++ j.description ++ "|" ++ j.sourceURL

/-- One iteration of the listing loop inside `scrapeAndInsert`: red-flag
filter, `source_url` synthesis from the external id when absent, then the
conditional dedup insert (a DB error skips the listing). -/
def processJob (env : ScrapeEnv) (cfg : SearchConfig)
    (acc : ScrapeTotals × List FeedRow × Nat) (job : JobResult) :
    ScrapeTotals × List FeedRow × Nat :=
  let (tot, feed, nextId) := acc
  if ContainsRedFlag job.title job.company job.description cfg.redFlags then
    ({ tot with filtered := tot.filtered + 1 }, feed, nextId)
  else
    let srcUrl := if job.sourceURL = "" then "adzuna:" ++ job.externalID else job.sourceURL
    if env.dbOk srcUrl then
      match ingest feed nextId cfg.id (jobRaw job) srcUrl with
      | (.Duplicate, feed', nextId') => ({ tot with duplicate := tot.duplicate + 1 }, feed', nextId')
      | (.Inserted, feed', nextId') => ({ tot with inserted := tot.inserted + 1 }, feed', nextId')
    else
      (tot, feed, nextId)

/-- `Worker.scrapeAndInsert` for one (title, location) pair: a fetch error
is returned to the caller; an empty result short-circuits; otherwise every
listing is processed in order. -/
def scrapeAndInsert (env : ScrapeEnv) (cfg : SearchConfig) (feed : List FeedRow)
    (nextId : Nat) (title location : String) :
    Except String (ScrapeTotals × List FeedRow × Nat) :=
  match env.fetch title location with
  | .error e => .error ("fetch: " ++ e)
  | .ok results =>
    if results.isEmpty then .ok (⟨0, 0, 0⟩, feed, nextId)
    else .ok (results.foldl (processJob env cfg) (⟨0, 0, 0⟩, feed, nextId))

/-- One step of `Run`'s pair loop: an error from `scrapeAndInsert` is
logged and the loop continues with the accumulator unchanged; a success
adds the pair's counters and adopts the new feed state. -/
def runStep (env : ScrapeEnv) (cfg : SearchConfig)
    (acc : ScrapeTotals × List FeedRow × Nat) (pair : String × String) :
    ScrapeTotals × List FeedRow × Nat :=
  match scrapeAndInsert env cfg acc.2.1 acc.2.2 pair.1 pair.2 with
  | .error _ => acc
  | .ok (tot, feed', nextId') =>
    ({ inserted := acc.1.inserted + tot.inserted,
       filtered := acc.1.filtered + tot.filtered,
       duplicate := acc.1.duplicate + tot.duplicate }, feed', nextId')

/-- The pair loop of `Worker.Run` over a list of (title, location) pairs. -/
def runPairs (env : ScrapeEnv) (cfg : SearchConfig)
    (acc : ScrapeTotals × List FeedRow × Nat) (pairs : List (String × String)) :
    ScrapeTotals × List FeedRow × Nat :=
  pairs.foldl (runStep env cfg) acc

/-- `Worker.Run`: iterate the cross product of the config's titles and
locations (titles outer, locations inner) and return `nil` — the Go
function never returns an error of its own. -/
def Run (env : ScrapeEnv) (cfg : SearchConfig) (feed : List FeedRow) (nextId : Nat) :
    Except String (ScrapeTotals × List FeedRow × Nat) :=
  .ok (runPairs env cfg (⟨0, 0, 0⟩, feed, nextId)
        (cfg.jobTitles.flatMap (fun t => cfg.locations.map (fun l => (t, l)))))

/-! ## Shared helper lemmas -/

/-- Replacing, in place, every element that satisfies `q` does not disturb a
`find?` by a weaker predicate `p`, provided the first `p`-hit satisfies `q`
and its replacement still satisfies `p`. -/
theorem find_update {α : Type} (p q : α → Bool) (g : α → α) :
    ∀ (xs : List α) (x : α), xs.find? p = some x →
      (∀ a, q a = true → p a = true) → q x = true → p (g x) = true →
      (xs.map (fun a => if q a then g a else a)).find? p = some (g x) := by
  intro xs
  induction xs with
  | nil => intro x h _ _ _; simp [List.find?] at h
  | cons a rest ih =>
    intro x h himp hqx hpg
    by_cases hpa : p a = true
    · rw [List.find?_cons_of_pos _ hpa] at h
      injection h with h
      subst h
      simp only [List.map_cons, if_pos hqx]
      exact List.find?_cons_of_pos _ hpg
    · have hpa' : p a = false := by
        cases hp : p a
        · rfl
        · exact absurd hp hpa
      rw [List.find?_cons_of_neg _ (by simp [hpa'])] at h
      have hqa : q a = false := by
        cases hq : q a
        · rfl
        · exact absurd (himp a hq) (by simp [hpa'])
      have hhead : (if q a = true then g a else a) = a := by
        rw [hqa]; simp
      simp only [List.map_cons, hhead]
      rw [List.find?_cons_of_neg _ (by simp [hpa'])]
      exact ih x h himp hqx hpg

/-- A `find?` hit satisfies the predicate (projection of `List.find?_some`). -/
theorem find_sat {α : Type} {p : α → Bool} {xs : List α} {x : α}
    (h : xs.find? p = some x) : p x = true :=
  List.find?_some h

/-- Membership in a feed list under a `source_url` equality predicate,
phrased through `countUrl`. -/
theorem any_url_iff_countUrl (feed : List FeedRow) (u : String) :
    feed.any (fun r => r.sourceUrl = u) = true ↔ countUrl feed u ≠ 0 := by
  simp only [countUrl, List.any_eq_true, ne_eq, List.length_eq_zero]
  constructor
  · rintro ⟨r, hr, hru⟩ hnil
    have : r ∈ feed.filter (fun r => r.sourceUrl = u) := List.mem_filter.2 ⟨hr, hru⟩
    rw [hnil] at this
    cases this
  · intro hne
    rcases List.exists_mem_of_ne_nil _ hne with ⟨r, hr⟩
    rcases List.mem_filter.1 hr with ⟨hmem, hpred⟩
    exact ⟨r, hmem, hpred⟩

/-- `countUrl` distributes over append. -/
theorem countUrl_append (a b : List FeedRow) (u : String) :
    countUrl (a ++ b) u = countUrl a u + countUrl b u := by
  simp [countUrl, List.filter_append]

/-! ## Claim theorems -/

/-- C7 counterexample: the claim's "substring of the concatenation of the
title, company, and description fields" disagrees with the code on two
concrete inputs. The code joins the fields with single spaces, so the flag
`"ab"` straddling title `"a"` and company `"b"` does not match; and the
code skips empty-string flags, so the flag `""` never matches even though
the empty string is a substring of every text. -/
theorem C7_counterexample :
    (ContainsRedFlag "a" "b" "" ["ab"] = false ∧
      specContainsRedFlag "a" "b" "" ["ab"] = true) ∧
    (ContainsRedFlag "x" "y" "z" [""] = false ∧
      specContainsRedFlag "x" "y" "z" [""] = true) := by
  refine ⟨⟨?_, ?_⟩, ?_, ?_⟩ <;> decide

/-- C7 (amended): `contains_red_flag` returns true exactly when some
non-empty flag in the list occurs case-insensitively as a substring of the
space-joined concatenation of the title, company, and description fields;
for the empty flag list it returns false for all inputs; it is a pure
function of its four arguments. -/
theorem C7_red_flag_filter (title company description : String) (redFlags : List String) :
    ContainsRedFlag title company description redFlags = true ↔
      ∃ flag ∈ redFlags, flag ≠ "" ∧
        strContains (toLowerStr (title ++ " " ++ company ++ " " ++ description))
          (toLowerStr flag) = true := by
  unfold ContainsRedFlag
  by_cases hempty : redFlags.isEmpty
  · rw [if_pos hempty]
    rw [List.isEmpty_iff] at hempty
    subst hempty
    simp
  · rw [if_neg hempty]
    simp only [List.any_eq_true]
    constructor
    · rintro ⟨flag, hmem, hflag⟩
      by_cases hne : flag = ""
      · rw [if_pos hne] at hflag
        cases hflag
      · rw [if_neg hne] at hflag
        exact ⟨flag, hmem, hne, hflag⟩
    · rintro ⟨flag, hmem, hne, hsub⟩
      exact ⟨flag, hmem, by rw [if_neg hne]; exact hsub⟩

/-- C10: a red-flag list whose entries are all the empty string never
matches: empty flags are skipped, so they never cause a listing to be
discarded, even though the empty string is a substring of every text. -/
theorem C10_empty_flags_never_match (title company description : String)
    (redFlags : List String) (h : ∀ f ∈ redFlags, f = "") :
    ContainsRedFlag title company description redFlags = false := by
  unfold ContainsRedFlag
  by_cases hempty : redFlags.isEmpty
  · rw [if_pos hempty]
  · rw [if_neg hempty]
    simp only [List.any_eq_false]
    intro flag hmem
    rw [if_pos (h flag hmem)]
    simp

/-- Witness for C10 at a concrete input. -/
theorem C10_witness :
    ContainsRedFlag "Go Developer" "ACME" "Great job" ["", ""] = false :=
  C10_empty_flags_never_match "Go Developer" "ACME" "Great job" ["", ""] (by decide)

/-- C8: when the Adzuna credentials (app id or app key) are absent, `Fetch`
returns an empty sequence and no error, for every title and location and
whatever the upstream pages would have contained. -/
theorem C8_unconfigured_fetch_is_noop (f : AdzunaFetcher)
    (oracle : String → String → Nat → Except String (List JobResult))
    (jobTitle location : String)
    (h : f.AppID = "" ∨ f.AppKey = "") :
    Fetch f oracle jobTitle location = .ok [] := by
  unfold Fetch
  rcases h with h | h <;> simp [h]

/-- Witness for C8 at a concrete unconfigured fetcher. -/
theorem C8_witness :
    Fetch ⟨"", "secret", "fr"⟩ (fun _ _ _ => .ok []) "Go Developer" "Paris" = .ok [] :=
  C8_unconfigured_fetch_is_noop ⟨"", "secret", "fr"⟩ (fun _ _ _ => .ok [])
    "Go Developer" "Paris" (Or.inl rfl)

/-- An ingest attempt against a feed that already holds the url is a no-op
classified `Duplicate`. -/
theorem ingest_duplicate (feed : List FeedRow) (nextId cfgId : Nat) (raw srcUrl : String)
    (h : feed.any (fun r => r.sourceUrl = srcUrl) = true) :
    ingest feed nextId cfgId raw srcUrl = (.Duplicate, feed, nextId) := by
  unfold ingest
  rw [if_pos h]

/-- An ingest attempt with a fresh url appends exactly one `PENDING` row. -/
theorem ingest_fresh (feed : List FeedRow) (nextId cfgId : Nat) (raw srcUrl : String)
    (h : feed.any (fun r => r.sourceUrl = srcUrl) = false) :
    ingest feed nextId cfgId raw srcUrl =
      (.Inserted, feed ++ [pendingRow nextId cfgId raw srcUrl], nextId + 1) := by
  unfold ingest
  rw [if_neg (by simp [h])]

/-- Once the url is present, any number of further ingest attempts leaves
the feed untouched. -/
theorem iterateIngest_saturated (cfgId : Nat) (raw srcUrl : String) :
    ∀ (n : Nat) (feed : List FeedRow) (nextId : Nat),
      countUrl feed srcUrl ≠ 0 →
      iterateIngest n feed nextId cfgId raw srcUrl = (feed, nextId)
  | 0, _, _, _ => rfl
  | n + 1, feed, nextId, h => by
    have hany : feed.any (fun r => r.sourceUrl = srcUrl) = true :=
      (any_url_iff_countUrl feed srcUrl).2 h
    unfold iterateIngest
    rw [ingest_duplicate feed nextId cfgId raw srcUrl hany]
    exact iterateIngest_saturated cfgId raw srcUrl n feed nextId h

/-- C3: the ingest step keeps at most one `job_feed` row per `source_url`.
An attempt whose url is already present affects no row and is classified
`Duplicate`; an attempt with a fresh url inserts one row and is classified
`Inserted`; after `n + 1` attempts for one url starting from a feed without
it, exactly one row with that url exists; and the at-most-one-row-per-url
invariant is preserved by every ingest. -/
theorem C3_dedup_ingest (feed : List FeedRow) (nextId cfgId : Nat) (raw srcUrl : String) :
    (feed.any (fun r => r.sourceUrl = srcUrl) = true →
      ingest feed nextId cfgId raw srcUrl = (.Duplicate, feed, nextId)) ∧
    (feed.any (fun r => r.sourceUrl = srcUrl) = false →
      ingest feed nextId cfgId raw srcUrl =
        (.Inserted, feed ++ [pendingRow nextId cfgId raw srcUrl], nextId + 1)) ∧
    (countUrl feed srcUrl = 0 →
      ∀ n, countUrl (iterateIngest (n + 1) feed nextId cfgId raw srcUrl).1 srcUrl = 1) ∧
    ((∀ v, countUrl feed v ≤ 1) →
      ∀ v, countUrl (ingest feed nextId cfgId raw srcUrl).2.1 v ≤ 1) := by
  refine ⟨ingest_duplicate feed nextId cfgId raw srcUrl,
          ingest_fresh feed nextId cfgId raw srcUrl, ?_, ?_⟩
  · intro h0 n
    have hany : feed.any (fun r => r.sourceUrl = srcUrl) = false := by
      cases hq : feed.any (fun r => r.sourceUrl = srcUrl)
      · rfl
      · exact absurd ((any_url_iff_countUrl feed srcUrl).1 hq) (by simp [h0])
    unfold iterateIngest
    rw [ingest_fresh feed nextId cfgId raw srcUrl hany]
    have hone : countUrl (feed ++ [pendingRow nextId cfgId raw srcUrl]) srcUrl = 1 := by
      rw [countUrl_append, h0]
      simp [countUrl, pendingRow]
    rw [iterateIngest_saturated cfgId raw srcUrl n _ (nextId + 1) (by rw [hone]; exact one_ne_zero)]
    exact hone
  · intro hinv v
    by_cases hany : feed.any (fun r => r.sourceUrl = srcUrl) = true
    · rw [ingest_duplicate feed nextId cfgId raw srcUrl hany]
      exact hinv v
    · have hany' : feed.any (fun r => r.sourceUrl = srcUrl) = false := by
        cases hq : feed.any (fun r => r.sourceUrl = srcUrl)
        · rfl
        · exact absurd hq hany
      rw [ingest_fresh feed nextId cfgId raw srcUrl hany']
      rw [countUrl_append]
      by_cases hv : srcUrl = v
      · subst hv
        have h0 : countUrl feed srcUrl = 0 := by
          by_contra hne
          exact absurd ((any_url_iff_countUrl feed srcUrl).2 hne) (by simp [hany'])
        rw [h0]
        simp [countUrl, pendingRow]
      · have : countUrl [pendingRow nextId cfgId raw srcUrl] v = 0 := by
          simp [countUrl, List.filter, pendingRow, hv]
        rw [this]
        simpa using hinv v

/-- Witness for C3: a duplicate attempt is a no-op on a concrete feed, and
three attempts for one fresh url leave exactly one row. -/
theorem C3_witness :
    (ingest [pendingRow 0 9 "r" "u"] 1 9 "r" "u" =
      (.Duplicate, [pendingRow 0 9 "r" "u"], 1)) ∧
    countUrl (iterateIngest 3 [] 0 9 "r" "u").1 "u" = 1 :=
  ⟨(C3_dedup_ingest [pendingRow 0 9 "r" "u"] 1 9 "r" "u").1 (by decide),
   (C3_dedup_ingest [] 0 9 "r" "u").2.2.1 (by decide) 2⟩

/-- The application row as `MoveCard`'s UPDATE rewrites it: new status, the
appended `{from, to, at}` record, and the refreshed timestamp. -/
def movedRow (row : AppRow) (toSt : Status) (now : Nat) : AppRow :=
  { row with currentStatus := toSt,
             historyLog := row.historyLog ++
               [{ hFrom := row.currentStatus, hTo := toSt, hAt := now }],
             updatedAt := now }

/-- The store after a successful `MoveCard`: the atomic row update, then the
two best-effort side effects in order. -/
def postMoveState (st : DBState) (userID appID : Nat) (row : AppRow) (toSt : Status)
    (archiveOk publishOk : Bool) : DBState :=
  let row' := movedRow row toSt st.now
  let st1 := { st with apps := updateApp st.apps appID userID row' }
  let st2 := if IsHired toSt && archiveOk then archiveSearchConfig st1 appID else st1
  if publishOk then
    { st2 with events := st2.events ++ [cardMovedEvent appID userID row.currentStatus toSt] }
  else st2

theorem MoveCard_eq_ok (st : DBState) (userID appID : Nat) (toSt : Status) (row : AppRow)
    (archiveOk publishOk : Bool)
    (hfind : findApp st.apps appID userID = some row)
    (hallow : IsTransitionAllowed row.currentStatus toSt = true) :
    MoveCard st userID appID (statusStr toSt) archiveOk publishOk =
      (.ok (movedRow row toSt st.now), postMoveState st userID appID row toSt archiveOk publishOk) := by
  unfold MoveCard postMoveState movedRow
  simp only [parseStatus_statusStr, hfind, hallow, if_true]

theorem MoveCard_eq_err (st : DBState) (userID appID : Nat) (toSt : Status) (row : AppRow)
    (archiveOk publishOk : Bool)
    (hfind : findApp st.apps appID userID = some row)
    (hallow : IsTransitionAllowed row.currentStatus toSt = false) :
    MoveCard st userID appID (statusStr toSt) archiveOk publishOk =
      (.error (.validation (transitionMsg row.currentStatus toSt)), st) := by
  unfold MoveCard
  simp only [parseStatus_statusStr, hfind, hallow]
  simp

/-- The side effects of `MoveCard` never touch the `applications` table. -/
theorem postMoveState_apps (st : DBState) (userID appID : Nat) (row : AppRow) (toSt : Status)
    (archiveOk publishOk : Bool) :
    (postMoveState st userID appID row toSt archiveOk publishOk).apps =
      updateApp st.apps appID userID (movedRow row toSt st.now) := by
  unfold postMoveState
  cases hb : IsHired toSt && archiveOk <;> cases hp : publishOk <;>
    simp [archiveSearchConfig]

/-- A successful publish appends exactly one card-moved event; the archive
side effect never touches the event log. -/
theorem postMoveState_events (st : DBState) (userID appID : Nat) (row : AppRow) (toSt : Status)
    (archiveOk : Bool) :
    (postMoveState st userID appID row toSt archiveOk true).events =
      st.events ++ [cardMovedEvent appID userID row.currentStatus toSt] := by
  unfold postMoveState
  cases hb : IsHired toSt && archiveOk <;> simp [archiveSearchConfig]

/-- `findApp` after `updateApp` on the found row yields the replacement. -/
theorem findApp_updateApp (apps : List AppRow) (appID userID : Nat) (row row' : AppRow)
    (hfind : findApp apps appID userID = some row)
    (hid : row'.id = row.id) (huser : row'.userId = row.userId) :
    findApp (updateApp apps appID userID row') appID userID = some row' := by
  have hsat := find_sat hfind
  unfold findApp updateApp
  unfold findApp at hfind
  have := find_update (fun a => a.id = appID && a.userId = userID)
    (fun a => a.id = appID && a.userId = userID) (fun _ => row') apps row hfind
    (fun _ h => h) hsat
  apply this
  simp only [hid, huser]
  exact hsat

/-- `find?` by id after `updateApp`, when the row found by id is the owned
row being replaced (ids are the table's primary key). -/
theorem findById_updateApp (apps : List AppRow) (appID userID : Nat) (row row' : AppRow)
    (hfirst : apps.find? (fun a => a.id = appID) = some row)
    (huser : row.userId = userID)
    (hid : row'.id = row.id) :
    (updateApp apps appID userID row').find? (fun a => a.id = appID) = some row' := by
  have hsat := find_sat hfirst
  unfold updateApp
  have := find_update (fun a => a.id = appID)
    (fun a => a.id = appID && a.userId = userID) (fun _ => row') apps row hfirst
    (fun a h => by
      rcases Bool.and_eq_true_iff.1 h with ⟨h1, _⟩
      exact h1)
    (by simp [hsat, huser])
  apply this
  simp only [hid]
  exact hsat

/-- C1: for every pair (from, to) absent from the transition table —
including every pair whose source is HIRED or REJECTED and every
self-transition — `MoveCard` on an owned application currently at `from`
returns a ValidationError naming both states and leaves the store, hence
the application's current status and history log, exactly unchanged. -/
theorem C1_movecard_rejects_invalid (st : DBState) (userID appID : Nat)
    (fromSt toSt : Status) (row : AppRow) (archiveOk publishOk : Bool)
    (hmem : (fromSt, toSt) ∉ transitionTable)
    (hfind : findApp st.apps appID userID = some row)
    (hcur : row.currentStatus = fromSt) :
    MoveCard st userID appID (statusStr toSt) archiveOk publishOk =
      (.error (.validation (transitionMsg fromSt toSt)), st) := by
  have hallow : IsTransitionAllowed row.currentStatus toSt = false := by
    rw [hcur]
    cases hq : IsTransitionAllowed fromSt toSt
    · rfl
    · exact absurd ((isTransitionAllowed_iff_mem fromSt toSt).1 hq) hmem
  rw [MoveCard_eq_err st userID appID toSt row archiveOk publishOk hfind hallow, hcur]

/-- The concrete application row used by the C1 witness. -/
def c1Row : AppRow :=
  { id := 1, userId := 2, jobFeedId := none, currentStatus := .HIRED,
    aiAnalysis := "{}", userNotes := none, userRating := none,
    relanceReminderAt := none, historyLog := [], createdAt := 0, updatedAt := 0 }

/-- The concrete store used by the C1 witness. -/
def c1State : DBState :=
  { apps := [c1Row], feed := [], configs := [], events := [], nextId := 2, now := 5 }

/-- Witness for C1: a terminal-state self-transition (HIRED → HIRED) on a
concrete store is rejected and the store is returned unchanged. -/
theorem C1_witness :
    MoveCard c1State 2 1 (statusStr .HIRED) true true =
      (.error (.validation (transitionMsg .HIRED .HIRED)), c1State) :=
  C1_movecard_rejects_invalid c1State 2 1 .HIRED .HIRED c1Row true true
    (by decide) (by decide) rfl

/-- C2: for every pair (from, to) present in the transition table,
`MoveCard` on an owned application currently at `from` succeeds, and the
returned row — which is also the row now stored for `(appID, userID)` —
has status `to`, exactly one new `{from, to, at}` record appended to the
history log, and the refreshed modification timestamp, all produced by the
single row update. -/
theorem C2_movecard_valid (st : DBState) (userID appID : Nat)
    (fromSt toSt : Status) (row : AppRow) (archiveOk publishOk : Bool)
    (hmem : (fromSt, toSt) ∈ transitionTable)
    (hfind : findApp st.apps appID userID = some row)
    (hcur : row.currentStatus = fromSt) :
    ∃ row',
      (MoveCard st userID appID (statusStr toSt) archiveOk publishOk).1 = .ok row' ∧
      row'.currentStatus = toSt ∧
      row'.historyLog = row.historyLog ++ [{ hFrom := fromSt, hTo := toSt, hAt := st.now }] ∧
      row'.updatedAt = st.now ∧
      findApp (MoveCard st userID appID (statusStr toSt) archiveOk publishOk).2.apps
        appID userID = some row' := by
  have hallow : IsTransitionAllowed row.currentStatus toSt = true := by
    rw [hcur]
    exact (isTransitionAllowed_iff_mem fromSt toSt).2 hmem
  refine ⟨movedRow row toSt st.now, ?_, ?_, ?_, ?_, ?_⟩
  · rw [MoveCard_eq_ok st userID appID toSt row archiveOk publishOk hfind hallow]
  · rfl
  · simp [movedRow, hcur]
  · rfl
  · rw [MoveCard_eq_ok st userID appID toSt row archiveOk publishOk hfind hallow]
    rw [postMoveState_apps]
    exact findApp_updateApp st.apps appID userID row (movedRow row toSt st.now) hfind rfl rfl

/-- The concrete store used by the C2 witness. -/
def c2State : DBState :=
  { apps := [{ id := 1, userId := 2, jobFeedId := none, currentStatus := .TO_APPLY,
               aiAnalysis := "{}", userNotes := none, userRating := none,
               relanceReminderAt := none, historyLog := [], createdAt := 0, updatedAt := 0 }],
    feed := [], configs := [], events := [], nextId := 2, now := 5 }

/-- Witness for C2: a concrete TO_APPLY → APPLIED move. -/
theorem C2_witness :
    ∃ row',
      (MoveCard c2State 2 1 (statusStr .APPLIED) true true).1 = .ok row' ∧
      row'.currentStatus = .APPLIED ∧
      row'.historyLog =
        ([] : List HistoryEntry) ++ [{ hFrom := .TO_APPLY, hTo := .APPLIED, hAt := 5 }] ∧
      row'.updatedAt = 5 ∧
      findApp (MoveCard c2State 2 1 (statusStr .APPLIED) true true).2.apps 1 2 = some row' :=
  C2_movecard_valid c2State 2 1 .TO_APPLY .APPLIED
    { id := 1, userId := 2, jobFeedId := none, currentStatus := .TO_APPLY,
      aiAnalysis := "{}", userNotes := none, userRating := none,
      relanceReminderAt := none, historyLog := [], createdAt := 0, updatedAt := 0 }
    true true (by decide) (by decide) rfl

/-- On a HIRED move with the archival side effect succeeding, the final
`search_configs` table is the archival UPDATE applied to the original one. -/
theorem postMoveState_configs_hired (st : DBState) (userID appID : Nat) (row : AppRow)
    (publishOk : Bool) :
    (postMoveState st userID appID row .HIRED true publishOk).configs =
      archivedConfigs
        { st with apps := updateApp st.apps appID userID (movedRow row .HIRED st.now) }
        appID := by
  unfold postMoveState
  cases publishOk <;> simp [IsHired, archiveSearchConfig]

/-- C6: on an owned application at OFFER with a linked feed item, a HIRED
move succeeds, deactivates exactly the SearchConfig reachable through the
linked JobFeedItem, publishes exactly one card-moved event, and — whatever
the outcomes of the archival and the publish — always returns the same
successful result, so side-effect failures never surface as `MoveCard`'s
error. -/
theorem C6_hired_archives_and_publishes (st : DBState) (userID appID fid : Nat)
    (row : AppRow) (jf : FeedRow)
    (hfind : findApp st.apps appID userID = some row)
    (hfirst : st.apps.find? (fun a => a.id = appID) = some row)
    (hcur : row.currentStatus = .OFFER)
    (hlink : row.jobFeedId = some fid)
    (hjf : st.feed.find? (fun j => j.id = fid) = some jf) :
    ∃ row',
      row'.currentStatus = .HIRED ∧
      (MoveCard st userID appID (statusStr .HIRED) true true).1 = .ok row' ∧
      (MoveCard st userID appID (statusStr .HIRED) true true).2.configs =
        st.configs.map (fun c =>
          if c.id = jf.searchConfigId then { c with isActive := false, updatedAt := st.now }
          else c) ∧
      (∀ c ∈ (MoveCard st userID appID (statusStr .HIRED) true true).2.configs,
        c.id = jf.searchConfigId → c.isActive = false) ∧
      (MoveCard st userID appID (statusStr .HIRED) true true).2.events =
        st.events ++ [cardMovedEvent appID userID .OFFER .HIRED] ∧
      ∀ archiveOk publishOk,
        (MoveCard st userID appID (statusStr .HIRED) archiveOk publishOk).1 = .ok row' := by
  have hallow : IsTransitionAllowed row.currentStatus .HIRED = true := by
    rw [hcur]; decide
  have huser : row.userId = userID := by
    have hsat := find_sat hfind
    rcases Bool.and_eq_true_iff.1 hsat with ⟨_, h2⟩
    exact of_decide_eq_true h2
  have hconfigs :
      (MoveCard st userID appID (statusStr .HIRED) true true).2.configs =
        st.configs.map (fun c =>
          if c.id = jf.searchConfigId then { c with isActive := false, updatedAt := st.now }
          else c) := by
    rw [MoveCard_eq_ok st userID appID .HIRED row true true hfind hallow]
    show (postMoveState st userID appID row .HIRED true true).configs = _
    rw [postMoveState_configs_hired]
    unfold archivedConfigs
    show (match (updateApp st.apps appID userID (movedRow row .HIRED st.now)).find?
        (fun a => a.id = appID) with
      | none => st.configs
      | some a => _) = _
    rw [findById_updateApp st.apps appID userID row (movedRow row .HIRED st.now)
      hfirst huser rfl]
    show (match (movedRow row .HIRED st.now).jobFeedId with
      | none => st.configs
      | some fid => _) = _
    have hlink' : (movedRow row .HIRED st.now).jobFeedId = some fid := hlink
    rw [hlink']
    show (match st.feed.find? (fun j => j.id = fid) with
      | none => st.configs
      | some jf => _) = _
    rw [hjf]
  refine ⟨movedRow row .HIRED st.now, rfl, ?_, hconfigs, ?_, ?_, ?_⟩
  · rw [MoveCard_eq_ok st userID appID .HIRED row true true hfind hallow]
  · rw [hconfigs]
    intro c hc hcid
    rcases List.mem_map.1 hc with ⟨c0, _, rfl⟩
    by_cases h0 : c0.id = jf.searchConfigId
    · rw [if_pos h0]
    · rw [if_neg h0] at hcid ⊢
      exact absurd hcid h0
  · rw [MoveCard_eq_ok st userID appID .HIRED row true true hfind hallow]
    show (postMoveState st userID appID row .HIRED true true).events = _
    rw [postMoveState_events, hcur]
  · intro archiveOk publishOk
    rw [MoveCard_eq_ok st userID appID .HIRED row archiveOk publishOk hfind hallow]

/-- The concrete application row used by the C6 witness. -/
def c6Row : AppRow :=
  { id := 1, userId := 2, jobFeedId := some 3, currentStatus := .OFFER,
    aiAnalysis := "{}", userNotes := none, userRating := none,
    relanceReminderAt := none, historyLog := [], createdAt := 0, updatedAt := 0 }

/-- The concrete store used by the C6 witness: one application at OFFER
linked through feed row 3 to search config 4. -/
def c6State : DBState :=
  { apps := [c6Row],
    feed := [{ id := 3, searchConfigId := 4, rawData := "raw", sourceUrl := "url",
               status := .PENDING }],
    configs := [{ id := 4, userId := 2, isActive := true, updatedAt := 0 }],
    events := [], nextId := 2, now := 9 }

/-- Witness for C6 on the concrete store. -/
theorem C6_witness :
    ∃ row',
      row'.currentStatus = .HIRED ∧
      (MoveCard c6State 2 1 (statusStr .HIRED) true true).1 = .ok row' ∧
      (MoveCard c6State 2 1 (statusStr .HIRED) true true).2.configs =
        c6State.configs.map (fun c =>
          if c.id = 4 then { c with isActive := false, updatedAt := c6State.now } else c) ∧
      (∀ c ∈ (MoveCard c6State 2 1 (statusStr .HIRED) true true).2.configs,
        c.id = 4 → c.isActive = false) ∧
      (MoveCard c6State 2 1 (statusStr .HIRED) true true).2.events =
        c6State.events ++ [cardMovedEvent 1 2 .OFFER .HIRED] ∧
      ∀ archiveOk publishOk,
        (MoveCard c6State 2 1 (statusStr .HIRED) archiveOk publishOk).1 = .ok row' :=
  C6_hired_archives_and_publishes c6State 2 1 3 c6Row
    { id := 3, searchConfigId := 4, rawData := "raw", sourceUrl := "url", status := .PENDING }
    (by decide) (by decide) rfl rfl (by decide)

/-- C9: within one discovery cycle, `Run` never returns an error of its
own; a (title, location) pair whose fetch fails contributes nothing and
the pair loop behaves exactly as if that pair were absent, so every
remaining pair is still processed; and a listing whose storage insert
fails is skipped with the loop continuing, never aborting the cycle. -/
theorem C9_pair_failure_isolated (env : ScrapeEnv) (cfg : SearchConfig) :
    (∀ feed nextId, ∃ res, Run env cfg feed nextId = .ok res) ∧
    (∀ (acc : ScrapeTotals × List FeedRow × Nat) (xs ys : List (String × String))
       (t l e : String), env.fetch t l = .error e →
      runPairs env cfg acc (xs ++ (t, l) :: ys) = runPairs env cfg acc (xs ++ ys)) ∧
    (∀ (acc : ScrapeTotals × List FeedRow × Nat) (job : JobResult),
      ContainsRedFlag job.title job.company job.description cfg.redFlags = false →
      env.dbOk (if job.sourceURL = "" then "adzuna:" ++ job.externalID else job.sourceURL)
        = false →
      processJob env cfg acc job = acc) := by
  refine ⟨fun feed nextId => ⟨_, rfl⟩, ?_, ?_⟩
  · intro acc xs ys t l e hfetch
    have hstep : ∀ a, runStep env cfg a (t, l) = a := by
      intro a
      unfold runStep scrapeAndInsert
      rw [hfetch]
    unfold runPairs
    rw [List.foldl_append, List.foldl_append, List.foldl_cons, hstep]
  · intro acc job hflag hdb
    obtain ⟨tot, feed, nextId⟩ := acc
    unfold processJob
    simp only [hflag, hdb]
    simp

/-- The environment used by the C9 witness: every fetch fails. -/
def c9Env : ScrapeEnv :=
  { fetch := fun _ _ => .error "boom", dbOk := fun _ => true }

/-- The config used by the C9 witness. -/
def c9Cfg : SearchConfig :=
  { id := 1, userId := 2, jobTitles := ["Go Developer"], locations := ["Paris"],
    redFlags := ["unpaid"] }

/-- Witness for C9: the run still completes without error, and the failing
pair drops out of the pair loop. -/
theorem C9_witness :
    (∃ res, Run c9Env c9Cfg [] 0 = .ok res) ∧
    runPairs c9Env c9Cfg (⟨0, 0, 0⟩, [], 0) ([("a", "b")] ++ ("t", "l") :: []) =
      runPairs c9Env c9Cfg (⟨0, 0, 0⟩, [], 0) ([("a", "b")] ++ []) :=
  ⟨(C9_pair_failure_isolated c9Env c9Cfg).1 [] 0,
   (C9_pair_failure_isolated c9Env c9Cfg).2.1 (⟨0, 0, 0⟩, [], 0)
     [("a", "b")] [] "t" "l" "boom" rfl⟩

/-- The empty store both C4 evaluations start from. -/
def c4State : DBState :=
  { apps := [], feed := [], configs := [], events := [], nextId := 1, now := 10 }

/-- C4: evaluation of both `createApplication` implementations at the
failing inputs. The gateway resolver with a null `jobFeedId` (PostgreSQL
unique constraints treat NULLs as distinct, so `ON CONFLICT` never fires)
inserts a second row with a fresh id on the second call; the tracker
service's Go `CreateApplication` (`ON CONFLICT DO NOTHING` + `RETURNING`)
scans zero rows on the second identical call and fails instead of
returning the existing application. -/
theorem C4_createApplication_not_idempotent :
    ((createApplication c4State 7 none).1.id = 1 ∧
     (createApplication (createApplication c4State 7 none).2 7 none).1.id = 2 ∧
     (createApplication (createApplication c4State 7 none).2 7 none).2.apps.length = 2) ∧
    ((CreateApplication c4State 7 5 true).1.isOk = true ∧
     (CreateApplication (CreateApplication c4State 7 5 true).2 7 5 true).1 =
       .error (.internalErr "createApplication: no rows in result set") ∧
     (CreateApplication (CreateApplication c4State 7 5 true).2 7 5 true).2 =
       (CreateApplication c4State 7 5 true).2) := by
  decide

/-- A row matching the `(user_id, job_feed_id)` conflict target with a
non-null feed id carries exactly those key values. -/
theorem conflictTarget_true {userId v : Nat} {a : AppRow}
    (h : conflictTarget userId (some v) a = true) :
    a.userId = userId ∧ a.jobFeedId = some v := by
  unfold conflictTarget at h
  rcases Bool.and_eq_true_iff.1 h with ⟨h1, h2⟩
  refine ⟨of_decide_eq_true h1, ?_⟩
  rcases hrj : a.jobFeedId with _ | w
  · rw [hrj] at h2
    simp at h2
  · rw [hrj] at h2
    simp at h2
    rw [h2]

/-- The gateway insert with a non-null feed id returns a row keyed by the
requested `(user, feed)` pair and touches only the `applications` table. -/
theorem createApplication_fields (st : DBState) (userId v : Nat) :
    (createApplication st userId (some v)).1.userId = userId ∧
    (createApplication st userId (some v)).1.jobFeedId = some v ∧
    (createApplication st userId (some v)).2.feed = st.feed ∧
    (createApplication st userId (some v)).2.configs = st.configs := by
  unfold createApplication
  cases hc : st.apps.find? (conflictTarget userId (some v)) with
  | none => simp [newAppRow]
  | some row =>
    rcases conflictTarget_true (find_sat hc) with ⟨huser, hjfid⟩
    simp [huser, hjfid]

/-- Approving a feed row rewrites exactly its status; `find?` by id then
yields the approved row. -/
theorem findFeed_approvedFeed (feed : List FeedRow) (jobFeedId : Nat) (jf : FeedRow)
    (h : feed.find? (fun j => j.id = jobFeedId) = some jf) :
    (approvedFeed feed jobFeedId).find? (fun j => j.id = jobFeedId) =
      some { jf with status := JobStatus.APPROVED } := by
  unfold approvedFeed
  induction feed with
  | nil => simp [List.find?] at h
  | cons a rest ih =>
    by_cases ha : a.id = jobFeedId
    · rw [List.find?_cons_of_pos _ (by simp [ha])] at h
      injection h with h
      subst h
      simp only [List.map_cons, if_pos ha]
      exact List.find?_cons_of_pos _ (by simp [ha])
    · rw [List.find?_cons_of_neg _ (by simp [ha])] at h
      simp only [List.map_cons, if_neg ha]
      rw [List.find?_cons_of_neg _ (by simp [ha])]
      exact ih h

/-- The approve path never touches `job_feed` beyond the status flip. -/
theorem postApproveState_feed (st : DBState) (userId jobFeedId : Nat) (publishOk : Bool) :
    (postApproveState st userId jobFeedId publishOk).feed =
      approvedFeed st.feed jobFeedId := by
  unfold postApproveState
  have h := (createApplication_fields
    { st with feed := approvedFeed st.feed jobFeedId } userId jobFeedId).2.2.1
  cases publishOk <;> simpa using h

/-- The approve path never touches `search_configs`. -/
theorem postApproveState_configs (st : DBState) (userId jobFeedId : Nat) (publishOk : Bool) :
    (postApproveState st userId jobFeedId publishOk).configs = st.configs := by
  unfold postApproveState
  have h := (createApplication_fields
    { st with feed := approvedFeed st.feed jobFeedId } userId jobFeedId).2.2.2
  cases publishOk <;> simpa using h

theorem approveJob_pending (st : DBState) (userId jobFeedId : Nat) (jf : FeedRow)
    (publishOk : Bool)
    (hjf : st.feed.find? (fun j => j.id = jobFeedId) = some jf)
    (hown : st.configs.any (fun c => c.id = jf.searchConfigId && c.userId = userId) = true)
    (hnap : ¬jf.status = JobStatus.APPROVED) :
    approveJob st userId jobFeedId publishOk =
      (.ok (approveResult st userId jobFeedId),
       postApproveState st userId jobFeedId publishOk) := by
  unfold approveJob
  simp only [hjf]
  rw [if_pos hown, if_neg hnap]

theorem approveJob_already (st : DBState) (userId jobFeedId : Nat) (jf : FeedRow)
    (publishOk : Bool)
    (hjf : st.feed.find? (fun j => j.id = jobFeedId) = some jf)
    (hown : st.configs.any (fun c => c.id = jf.searchConfigId && c.userId = userId) = true)
    (hap : jf.status = JobStatus.APPROVED) :
    approveJob st userId jobFeedId publishOk =
      (.error (.badUserInput "Job is already approved."), st) := by
  unfold approveJob
  simp only [hjf]
  rw [if_pos hown, if_pos hap]

/-- The concrete store for the C5 counterexample: one PENDING feed item
owned by user 7 through search config 4. -/
def c5State : DBState :=
  { apps := [],
    feed := [{ id := 3, searchConfigId := 4, rawData := "raw", sourceUrl := "url",
               status := .PENDING }],
    configs := [{ id := 4, userId := 7, isActive := true, updatedAt := 0 }],
    events := [], nextId := 1, now := 10 }

/-- C5 counterexample: the first approval of a PENDING owned item
succeeds, but a second approval of the same item returns a BAD_USER_INPUT
error ("Job is already approved.") instead of returning the Application
again, so approval is not idempotent as claimed. -/
theorem C5_counterexample :
    (approveJob c5State 7 3 true).1.isOk = true ∧
    (approveJob (approveJob c5State 7 3 true).2 7 3 true).1 =
      .error (.badUserInput "Job is already approved.") := by
  decide

/-- C5 (amended): approving an owned PENDING feed item transitions it to
APPROVED and creates/returns the initial Application keyed by the
requesting owner and the item; a second approval of the same item is
rejected with the "Job is already approved." validation error and leaves
the store — in particular the applications table — exactly unchanged, so
no duplicate Application is ever created. -/
theorem C5_approve_once (st : DBState) (userId jobFeedId : Nat) (jf : FeedRow)
    (publishOk : Bool)
    (hjf : st.feed.find? (fun j => j.id = jobFeedId) = some jf)
    (hpend : jf.status = .PENDING)
    (hown : st.configs.any (fun c => c.id = jf.searchConfigId && c.userId = userId) = true) :
    ∃ app,
      (approveJob st userId jobFeedId publishOk).1 = .ok app ∧
      app.userId = userId ∧
      app.jobFeedId = some jobFeedId ∧
      (approveJob st userId jobFeedId publishOk).2.feed.find? (fun j => j.id = jobFeedId) =
        some { jf with status := JobStatus.APPROVED } ∧
      approveJob (approveJob st userId jobFeedId publishOk).2 userId jobFeedId publishOk =
        (.error (.badUserInput "Job is already approved."),
         (approveJob st userId jobFeedId publishOk).2) := by
  have hnap : ¬jf.status = JobStatus.APPROVED := by
    rw [hpend]
    intro hcon
    cases hcon
  have h1 := approveJob_pending st userId jobFeedId jf publishOk hjf hown hnap
  refine ⟨approveResult st userId jobFeedId, ?_, ?_, ?_, ?_, ?_⟩
  · rw [h1]
  · unfold approveResult
    exact (createApplication_fields
      { st with feed := approvedFeed st.feed jobFeedId } userId jobFeedId).1
  · unfold approveResult
    exact (createApplication_fields
      { st with feed := approvedFeed st.feed jobFeedId } userId jobFeedId).2.1
  · rw [h1]
    show (postApproveState st userId jobFeedId publishOk).feed.find? _ = _
    rw [postApproveState_feed]
    exact findFeed_approvedFeed st.feed jobFeedId jf hjf
  · rw [h1]
    show approveJob (postApproveState st userId jobFeedId publishOk) userId jobFeedId publishOk = _
    have hfeed : (postApproveState st userId jobFeedId publishOk).feed.find?
        (fun j => j.id = jobFeedId) = some { jf with status := JobStatus.APPROVED } := by
      rw [postApproveState_feed]
      exact findFeed_approvedFeed st.feed jobFeedId jf hjf
    have hconf : (postApproveState st userId jobFeedId publishOk).configs.any
        (fun c => c.id = ({ jf with status := JobStatus.APPROVED } : FeedRow).searchConfigId
          && c.userId = userId) = true := by
      rw [postApproveState_configs]
      exact hown
    exact approveJob_already (postApproveState st userId jobFeedId publishOk)
      userId jobFeedId { jf with status := JobStatus.APPROVED } publishOk hfeed hconf rfl

/-- Witness for C5's amended theorem on the concrete store. -/
theorem C5_witness :
    ∃ app,
      (approveJob c5State 7 3 true).1 = .ok app ∧
      app.userId = 7 ∧
      app.jobFeedId = some 3 ∧
      (approveJob c5State 7 3 true).2.feed.find? (fun j => j.id = 3) =
        some { id := 3, searchConfigId := 4, rawData := "raw", sourceUrl := "url",
               status := JobStatus.APPROVED } ∧
      approveJob (approveJob c5State 7 3 true).2 7 3 true =
        (.error (.badUserInput "Job is already approved."), (approveJob c5State 7 3 true).2) :=
  C5_approve_once c5State 7 3
    { id := 3, searchConfigId := 4, rawData := "raw", sourceUrl := "url", status := .PENDING }
    true (by decide) rfl (by decide)

end JobMate
